import Mathlib

/-!
Verification of the dynamic-sampling distribution core of
`src/sentry/api/endpoints/project_dynamic_sampling.py`.

The Python functions are embedded shallowly over `ℚ`:

* `percentile_fn` embeds the module-level `percentile_fn(data, percentile)`;
* `get_sample_rates_data` embeds
  `ProjectDynamicSamplingDistributionEndpoint._get_sample_rates_data`;
* `buildReport` embeds the post-query part of
  `ProjectDynamicSamplingDistributionEndpoint.get` (lines 127-194): the two
  `discover.query` calls are external collaborators, so the rows they return
  are parameters (`root_transactions` for the first query, `breakdownQuery`
  for the second, which receives the trace-id list the code interpolates
  into the breakdown query).

Python `None`/empty client sample rates are modelled as `Option ℚ = none`;
numeric rates as rationals.  Python list indexing (negative indices wrap,
out-of-range raises) is modelled by `pyIndex`, with `none` standing for
`IndexError`.
-/

/-- Python list indexing `data[i]` for `i : ℤ`: a negative index wraps once
from the end, and an index that is still out of range raises `IndexError`,
modelled as `none`. -/
def pyIndex (data : List ℚ) (i : ℤ) : Option ℚ :=
  if 0 ≤ i then data[i.toNat]?
  else if 0 ≤ i + data.length then data[(i + data.length).toNat]? else none

/-- Embedding of `percentile_fn(data, percentile)` (source lines 16-29):
empty input yields `None`; otherwise `pecentile_idx = len(data) * percentile`,
and the function returns `data[int(pecentile_idx)]` when the index is an
exact integer and `data[int(math.ceil(pecentile_idx)) - 1]` otherwise.
`float.is_integer()` is modelled as the rational having denominator 1, in
which case Python `int()` truncation returns exactly the numerator. -/
def percentile_fn (data : List ℚ) (percentile : ℚ) : Option ℚ :=
  if data.length = 0 then none
  else
    let pecentile_idx : ℚ := data.length * percentile
    if pecentile_idx.den = 1 then pyIndex data pecentile_idx.num
    else pyIndex data (⌈pecentile_idx⌉ - 1)

/-- Modelled from the spec: the nearest-rank rule of spec section 4.1 for
`PercentileEstimator`, written from the spec text alone.  Let
`idx = len(sortedData) * p`; if `idx` is an exact integer return
`sortedData[idx]` (plain 0-based indexing), else return
`sortedData[ceil(idx) - 1]`; an empty `sortedData` gives an absent result. -/
def percentileNearestRankSpec (sortedData : List ℚ) (p : ℚ) : Option ℚ :=
  if sortedData.length = 0 then none
  else
    let idx : ℚ := sortedData.length * p
    if (⌈idx⌉ : ℚ) = idx then sortedData[(⌈idx⌉).toNat]?
    else sortedData[(⌈idx⌉ - 1).toNat]?

/-- Embedding of Python `min(lst, default=None)`: the least element of the
list, or `none` for the empty list. -/
def listMin : List ℚ → Option ℚ
  | [] => none
  | x :: xs =>
    some (match listMin xs with
      | none => x
      | some m => min x m)

/-- Embedding of Python `max(lst, default=None)`: the greatest element of the
list, or `none` for the empty list. -/
def listMax : List ℚ → Option ℚ
  | [] => none
  | x :: xs =>
    some (match listMax xs with
      | none => x
      | some m => max x m)

/-- The fixed-shape record produced by `_get_sample_rates_data`
(`sample_rate_distributions` in the response). -/
structure DistributionSummary where
  min : Option ℚ
  max : Option ℚ
  mean : Option ℚ
  p50 : Option ℚ
  p90 : Option ℚ
  p95 : Option ℚ
  p99 : Option ℚ

/-- Embedding of `_get_sample_rates_data(data)` (source lines 42-53).  Each
lambda in `distribution_functions` is applied to `data` itself; note that the
percentile lambdas close over `data` directly and no sorting happens here. -/
def get_sample_rates_data (data : List ℚ) : DistributionSummary :=
  { min := listMin data
    max := listMax data
    mean := if data.length > 0 then some (data.sum / data.length) else none
    p50 := percentile_fn data (1/2)
    p90 := percentile_fn data (9/10)
    p95 := percentile_fn data (95/100)
    p99 := percentile_fn data (99/100) }

/-- One row of the first `discover.query` call: a root transaction with its
trace id and optional client sample rate (`none` models both Python `None`
and the empty string, the two markers filtered out at source line 142). -/
structure RootTransaction where
  id : String
  trace : String
  clientSampleRate : Option ℚ

/-- One row of the breakdown `discover.query` call: a project with its
transaction-event count. -/
structure BreakdownEntry where
  project : String
  count : ℕ

/-- The success payload of the endpoint (source lines 131-139 and 185-194). -/
structure SamplingReport where
  project_breakdown : Option (List BreakdownEntry)
  sample_size : ℕ
  null_sample_rate_percentage : Option ℚ
  sample_rate_distributions : Option DistributionSummary

/-- Outcome of the endpoint logic: a `200`-style payload, or the early
`Response(status=400, data=...)` return carrying only a details message. -/
inductive EndpointResult where
  | ok (report : SamplingReport)
  | clientError (statusCode : ℕ) (details : String)

/-- The ordering under which raw sample rates are sorted at source line 128:
null/empty markers compare below numeric rates and sort together, numeric
rates compare by value.  (Only the multiset of elements of this list is used
downstream, so the placement of nulls is observationally irrelevant.) -/
def optRateLe : Option ℚ → Option ℚ → Prop
  | none, _ => True
  | some _, none => False
  | some x, some y => x ≤ y

instance : DecidableRel optRateLe := fun a b =>
  match a, b with
  | none, _ => .isTrue trivial
  | some _, none => .isFalse fun h => h
  | some x, some y => inferInstanceAs (Decidable (x ≤ y))

/-- Embedding of the post-query logic of
`ProjectDynamicSamplingDistributionEndpoint.get` (source lines 127-194).
`root_transactions` is the row list returned by the first `discover.query`;
`breakdownQuery` models the second `discover.query`, mapping the trace-id
list to the returned breakdown rows.  Mirrors the source: compute
`sample_size` and the sorted `sample_rates`; return the empty report when
there are no rates; otherwise build the sorted `non_null_sample_rates`,
optionally fetch the breakdown and reject with HTTP 400 when it exceeds 10
projects, and finally assemble the report. -/
def buildReport (root_transactions : List RootTransaction)
    (distributed_trace : Bool)
    (breakdownQuery : List String → List BreakdownEntry) : EndpointResult :=
  let sample_size := root_transactions.length
  let sample_rates :=
    List.insertionSort optRateLe
      (root_transactions.map fun transaction => transaction.clientSampleRate)
  if sample_rates.length = 0 then
    .ok { project_breakdown := none
          sample_size := sample_size
          null_sample_rate_percentage := none
          sample_rate_distributions := none }
  else
    let non_null_sample_rates :=
      List.insertionSort (· ≤ ·) (sample_rates.filterMap id)
    let finalResponse (project_breakdown : Option (List BreakdownEntry)) :
        EndpointResult :=
      .ok { project_breakdown := project_breakdown
            sample_size := sample_size
            null_sample_rate_percentage :=
              some (((sample_size : ℚ) - non_null_sample_rates.length)
                / sample_size * 100)
            sample_rate_distributions :=
              some (get_sample_rates_data non_null_sample_rates) }
    if distributed_trace then
      let trace_id_list :=
        root_transactions.map fun transaction => transaction.trace
      let project_breakdown := breakdownQuery trace_id_list
      if project_breakdown.length > 10 then
        .clientError 400
          "Way too many projects in the distributed trace\x27s project breakdown"
      else
        finalResponse (some project_breakdown)
    else
      finalResponse none

/-- The success report assembled at source lines 185-194 for a non-empty
sample: `non_null_sample_rates` is the sorted list of numeric rates, the
null percentage is `(sample_size - len(non_null)) / sample_size * 100`, and
the distributions come from `get_sample_rates_data`. -/
def finalReport (root_transactions : List RootTransaction)
    (project_breakdown : Option (List BreakdownEntry)) : SamplingReport :=
  let sample_size := root_transactions.length
  let sample_rates :=
    List.insertionSort optRateLe
      (root_transactions.map fun transaction => transaction.clientSampleRate)
  let non_null_sample_rates :=
    List.insertionSort (· ≤ ·) (sample_rates.filterMap id)
  { project_breakdown := project_breakdown
    sample_size := sample_size
    null_sample_rate_percentage :=
      some (((sample_size : ℚ) - non_null_sample_rates.length)
        / sample_size * 100)
    sample_rate_distributions :=
      some (get_sample_rates_data non_null_sample_rates) }

/-! ### Helper lemmas -/

/-- Evaluation rule for `percentile_fn` when the index lands on an exact
integer `n ≥ 0`: the element at 0-based position `n` is returned. -/
theorem percentile_fn_eq_of_int (data : List ℚ) (p : ℚ) (n : ℤ)
    (hne : data.length ≠ 0) (h : (data.length : ℚ) * p = n) (hn : 0 ≤ n) :
    percentile_fn data p = data[n.toNat]? := by
  simp only [percentile_fn, if_neg hne, h]
  rw [if_pos (Rat.den_intCast n)]
  simp only [pyIndex, Rat.num_intCast, if_pos hn]

/-- Evaluation rule for `percentile_fn` when the index lies strictly between
the integers `n - 1` and `n` with `n ≥ 1`: the element at 0-based position
`n - 1` is returned. -/
theorem percentile_fn_eq_of_frac (data : List ℚ) (p : ℚ) (n : ℤ)
    (hne : data.length ≠ 0) (h1 : (n : ℚ) - 1 < (data.length : ℚ) * p)
    (h2 : (data.length : ℚ) * p < n) (hn : 1 ≤ n) :
    percentile_fn data p = data[(n - 1).toNat]? := by
  have hceil : ⌈(data.length : ℚ) * p⌉ = n :=
    Int.ceil_eq_iff.mpr ⟨h1, le_of_lt h2⟩
  have hden : ((data.length : ℚ) * p).den ≠ 1 := by
    intro hd
    have hq : ((((data.length : ℚ) * p).num : ℤ) : ℚ) = (data.length : ℚ) * p :=
      (Rat.den_eq_one_iff _).mp hd
    have ha : (n : ℚ) - 1 < (((data.length : ℚ) * p).num : ℚ) := by
      rw [hq]; exact h1
    have hb : ((((data.length : ℚ) * p).num : ℤ) : ℚ) < (n : ℚ) := by
      rw [hq]; exact h2
    have ha' : n - 1 < ((data.length : ℚ) * p).num := by exact_mod_cast ha
    have hb' : ((data.length : ℚ) * p).num < n := by exact_mod_cast hb
    omega
  simp only [percentile_fn, if_neg hne, if_neg hden, hceil]
  have hpos : 0 ≤ n - 1 := by omega
  simp only [pyIndex, if_pos hpos]

/-! ### C1: the percentile function follows the nearest-rank rule -/

/-- C1: for every non-empty list and percentile `p ≥ 0`, `percentile_fn`
agrees with the nearest-rank rule of spec section 4.1 (`percentileNearestRankSpec`):
`sortedData[idx]` when `idx = len * p` is an exact integer, and
`sortedData[ceil(idx) - 1]` otherwise. -/
theorem percentile_fn_follows_nearest_rank_rule (data : List ℚ) (p : ℚ)
    (hne : data ≠ []) (hp : 0 ≤ p) :
    percentile_fn data p = percentileNearestRankSpec data p := by
  have hlen : data.length ≠ 0 := by simpa using hne
  simp only [percentile_fn, percentileNearestRankSpec, if_neg hlen]
  have hidx0 : (0 : ℚ) ≤ (data.length : ℚ) * p :=
    mul_nonneg (by positivity) hp
  by_cases hden : ((data.length : ℚ) * p).den = 1
  · have hq : ((((data.length : ℚ) * p).num : ℤ) : ℚ) = (data.length : ℚ) * p :=
      (Rat.den_eq_one_iff _).mp hden
    have hceil : ⌈(data.length : ℚ) * p⌉ = ((data.length : ℚ) * p).num := by
      rw [← hq]; exact Int.ceil_intCast _
    rw [if_pos hden, if_pos (by rw [hceil, hq])]
    have hnum0 : 0 ≤ ((data.length : ℚ) * p).num := Rat.num_nonneg.mpr hidx0
    simp only [pyIndex, if_pos hnum0, hceil]
  · have hne2 : (⌈(data.length : ℚ) * p⌉ : ℚ) ≠ (data.length : ℚ) * p := by
      intro h
      exact hden (by rw [← h]; exact Rat.den_intCast _)
    rw [if_neg hden, if_neg hne2]
    have hpos : (0 : ℚ) < (data.length : ℚ) * p := by
      rcases lt_or_eq_of_le hidx0 with h | h
      · exact h
      · exact absurd (by rw [← h]; rfl) hden
    have hceil1 : 0 ≤ ⌈(data.length : ℚ) * p⌉ - 1 := by
      have := Int.ceil_pos.mpr hpos
      omega
    simp only [pyIndex, if_pos hceil1]

/-- Witness for C1 at `data = [10, 20, 30, 40]`, `p = 0`. -/
theorem percentile_fn_follows_nearest_rank_rule_witness :
    ([(10 : ℚ), 20, 30, 40] ≠ []) ∧ ((0 : ℚ) ≤ 0) ∧
    percentile_fn [10, 20, 30, 40] 0 =
      percentileNearestRankSpec [10, 20, 30, 40] 0 :=
  ⟨by simp, le_rfl,
    percentile_fn_follows_nearest_rank_rule [10, 20, 30, 40] 0 (by simp) le_rfl⟩

/-! ### C9: the fixed reference table of the spec -/

/-- C9 counterexample: the reference table in the spec demands
`percentile([10,20,30,40], 0.25) == 10`, but the code returns `20`:
`idx = 4 * 0.25 = 1.0` is an exact integer, so `data[1] = 20` is returned. -/
theorem percentile_reference_table_fails :
    percentile_fn [10, 20, 30, 40] (1/4) ≠ some 10 := by
  have h : percentile_fn [(10 : ℚ), 20, 30, 40] (1/4) = some 20 := by
    rw [percentile_fn_eq_of_int _ _ 1 (by norm_num) (by norm_num) (by norm_num)]
    simp
  rw [h]
  intro hcontra
  have : (20 : ℚ) = 10 := by injection hcontra
  norm_num at this

/-- C9 amended: on the code, `percentile([10,20,30,40], 0.25) == 20`
(index `4 * 0.25 = 1` is exact, 0-based) and
`percentile([10,20,30,40], 0.9) == 40` (index `ceil(3.6) - 1 = 3`). -/
theorem percentile_reference_table_amended :
    percentile_fn [10, 20, 30, 40] (1/4) = some 20 ∧
    percentile_fn [10, 20, 30, 40] (9/10) = some 40 := by
  constructor
  · rw [percentile_fn_eq_of_int _ _ 1 (by norm_num) (by norm_num) (by norm_num)]
    simp
  · rw [percentile_fn_eq_of_frac _ _ 4 (by norm_num) (by norm_num) (by norm_num)
      (by norm_num)]
    simp

/-- `listMin` is `none` exactly on the empty list. -/
theorem listMin_eq_none_iff (l : List ℚ) : listMin l = none ↔ l = [] := by
  cases l <;> simp [listMin]

/-- `listMax` is `none` exactly on the empty list. -/
theorem listMax_eq_none_iff (l : List ℚ) : listMax l = none ↔ l = [] := by
  cases l <;> simp [listMax]

/-- A value produced by `listMin` is a member of the list and a lower bound
for it. -/
theorem listMin_spec : ∀ (l : List ℚ) (m : ℚ), listMin l = some m →
    m ∈ l ∧ ∀ y ∈ l, m ≤ y := by
  intro l
  induction l with
  | nil => intro m h; simp [listMin] at h
  | cons x xs ih =>
    intro m h
    cases hx : listMin xs with
    | none =>
      have hxs : xs = [] := (listMin_eq_none_iff xs).mp hx
      subst hxs
      simp [listMin] at h
      subst h
      simp
    | some ms =>
      simp only [listMin, hx, Option.some.injEq] at h
      obtain ⟨hmem, hall⟩ := ih ms hx
      subst h
      refine ⟨?_, ?_⟩
      · rcases min_choice x ms with h | h <;> rw [h]
        · exact List.mem_cons_self x xs
        · exact List.mem_cons_of_mem x hmem
      · intro y hy
        rcases List.mem_cons.mp hy with rfl | hy
        · exact min_le_left _ _
        · exact le_trans (min_le_right _ _) (hall y hy)

/-- A value produced by `listMax` is a member of the list and an upper bound
for it. -/
theorem listMax_spec : ∀ (l : List ℚ) (m : ℚ), listMax l = some m →
    m ∈ l ∧ ∀ y ∈ l, y ≤ m := by
  intro l
  induction l with
  | nil => intro m h; simp [listMax] at h
  | cons x xs ih =>
    intro m h
    cases hx : listMax xs with
    | none =>
      have hxs : xs = [] := (listMax_eq_none_iff xs).mp hx
      subst hxs
      simp [listMax] at h
      subst h
      simp
    | some ms =>
      simp only [listMax, hx, Option.some.injEq] at h
      obtain ⟨hmem, hall⟩ := ih ms hx
      subst h
      refine ⟨?_, ?_⟩
      · rcases max_choice x ms with h | h <;> rw [h]
        · exact List.mem_cons_self x xs
        · exact List.mem_cons_of_mem x hmem
      · intro y hy
        rcases List.mem_cons.mp hy with rfl | hy
        · exact le_max_left _ _
        · exact le_trans (hall y hy) (le_max_right _ _)

/-- For `0 ≤ p < 1` on a non-empty list, `percentile_fn` returns an element
of the list. -/
theorem percentile_fn_mem (data : List ℚ) (p : ℚ) (hne : data ≠ [])
    (hp0 : 0 ≤ p) (hp1 : p < 1) :
    ∃ x, percentile_fn data p = some x ∧ x ∈ data := by
  have hlen : data.length ≠ 0 := by simpa using hne
  have hlpos : (0 : ℚ) < (data.length : ℚ) := by
    exact_mod_cast List.length_pos.mpr hne
  have hidx0 : (0 : ℚ) ≤ (data.length : ℚ) * p := mul_nonneg (le_of_lt hlpos) hp0
  have hidxlt : (data.length : ℚ) * p < (data.length : ℚ) := by
    calc (data.length : ℚ) * p < (data.length : ℚ) * 1 :=
          mul_lt_mul_of_pos_left hp1 hlpos
      _ = (data.length : ℚ) := mul_one _
  by_cases hden : ((data.length : ℚ) * p).den = 1
  · have hq : ((((data.length : ℚ) * p).num : ℤ) : ℚ) = (data.length : ℚ) * p :=
      (Rat.den_eq_one_iff _).mp hden
    have hnum0 : 0 ≤ ((data.length : ℚ) * p).num := Rat.num_nonneg.mpr hidx0
    have hnumlt : ((data.length : ℚ) * p).num < (data.length : ℤ) := by
      have : ((((data.length : ℚ) * p).num : ℤ) : ℚ) < ((data.length : ℤ) : ℚ) := by
        rw [hq]; exact_mod_cast hidxlt
      exact_mod_cast this
    have hidxnat : ((data.length : ℚ) * p).num.toNat < data.length := by omega
    refine ⟨data[((data.length : ℚ) * p).num.toNat], ?_, List.getElem_mem hidxnat⟩
    simp only [percentile_fn, if_neg hlen, if_pos hden, pyIndex, if_pos hnum0]
    exact List.getElem?_eq_getElem hidxnat
  · have hpos : (0 : ℚ) < (data.length : ℚ) * p := by
      rcases lt_or_eq_of_le hidx0 with h | h
      · exact h
      · exact absurd (by rw [← h]; rfl) hden
    have hceilpos : 0 < ⌈(data.length : ℚ) * p⌉ := Int.ceil_pos.mpr hpos
    have hceille : ⌈(data.length : ℚ) * p⌉ ≤ (data.length : ℤ) := by
      apply Int.ceil_le.mpr
      push_cast
      exact le_of_lt hidxlt
    have hidxnat : (⌈(data.length : ℚ) * p⌉ - 1).toNat < data.length := by omega
    refine ⟨data[(⌈(data.length : ℚ) * p⌉ - 1).toNat], ?_, List.getElem_mem hidxnat⟩
    simp only [percentile_fn, if_neg hlen, if_neg hden, pyIndex,
      if_pos (by omega : (0 : ℤ) ≤ ⌈(data.length : ℚ) * p⌉ - 1)]
    exact List.getElem?_eq_getElem hidxnat

/-! ### C7: `min <= p50 <= max` on every non-empty input -/

/-- C7: for every non-empty value sequence, the summarized record satisfies
`min ≤ p50 ≤ max`: all three fields are present and ordered. -/
theorem summary_min_le_p50_le_max (values : List ℚ) (hne : values ≠ []) :
    ∃ a b c, (get_sample_rates_data values).min = some a ∧
      (get_sample_rates_data values).p50 = some b ∧
      (get_sample_rates_data values).max = some c ∧ a ≤ b ∧ b ≤ c := by
  obtain ⟨b, hb, hbmem⟩ :=
    percentile_fn_mem values (1/2) hne (by norm_num) (by norm_num)
  obtain ⟨a, ha⟩ : ∃ a, listMin values = some a := by
    cases hm : listMin values with
    | none => exact absurd ((listMin_eq_none_iff values).mp hm) hne
    | some a => exact ⟨a, rfl⟩
  obtain ⟨c, hc⟩ : ∃ c, listMax values = some c := by
    cases hm : listMax values with
    | none => exact absurd ((listMax_eq_none_iff values).mp hm) hne
    | some c => exact ⟨c, rfl⟩
  refine ⟨a, b, c, ha, hb, hc, ?_, ?_⟩
  · exact (listMin_spec values a ha).2 b hbmem
  · exact (listMax_spec values c hc).2 b hbmem

/-- Witness for C7 at `values = [1]`. -/
theorem summary_min_le_p50_le_max_witness :
    ([(1 : ℚ)] ≠ []) ∧
    ∃ a b c, (get_sample_rates_data [(1 : ℚ)]).min = some a ∧
      (get_sample_rates_data [(1 : ℚ)]).p50 = some b ∧
      (get_sample_rates_data [(1 : ℚ)]).max = some c ∧ a ≤ b ∧ b ≤ c :=
  ⟨by simp, summary_min_le_p50_le_max [(1 : ℚ)] (by simp)⟩

/-! ### C8: summarizing the empty sequence -/

/-- C8: summarizing the empty value sequence yields a record with all seven
fields absent; in particular the mean is `none` because its division is
guarded by the `len(lst) > 0` test rather than evaluated. -/
theorem summary_empty_all_absent :
    get_sample_rates_data [] =
      { min := none, max := none, mean := none,
        p50 := none, p90 := none, p95 := none, p99 := none } := by
  simp [get_sample_rates_data, listMin, listMax, percentile_fn]

/-- `buildReport` on an empty sample: the valid empty report. -/
theorem buildReport_nil (dt : Bool) (bq : List String → List BreakdownEntry) :
    buildReport [] dt bq =
      .ok { project_breakdown := none, sample_size := 0,
            null_sample_rate_percentage := none,
            sample_rate_distributions := none } := rfl

/-- `buildReport` on a non-empty sample in distributed mode with a breakdown
of more than 10 projects: the HTTP 400 rejection. -/
theorem buildReport_cap (ts : List RootTransaction)
    (bq : List String → List BreakdownEntry) (hne : ts ≠ [])
    (hcap : 10 < (bq (ts.map fun t => t.trace)).length) :
    buildReport ts true bq =
      .clientError 400
        "Way too many projects in the distributed trace\x27s project breakdown" := by
  have hlen :
      ¬((List.insertionSort optRateLe
          (ts.map fun t => t.clientSampleRate)).length = 0) := by
    rw [List.length_insertionSort, List.length_map]
    simpa using hne
  simp only [buildReport, if_neg hlen, if_true]
  rw [if_pos hcap]

/-- `buildReport` on a non-empty sample in distributed mode with a breakdown
of at most 10 projects: the full report carrying the breakdown unchanged. -/
theorem buildReport_ok_distributed (ts : List RootTransaction)
    (bq : List String → List BreakdownEntry) (hne : ts ≠ [])
    (hcap : (bq (ts.map fun t => t.trace)).length ≤ 10) :
    buildReport ts true bq =
      .ok (finalReport ts (some (bq (ts.map fun t => t.trace)))) := by
  have hlen :
      ¬((List.insertionSort optRateLe
          (ts.map fun t => t.clientSampleRate)).length = 0) := by
    rw [List.length_insertionSort, List.length_map]
    simpa using hne
  simp only [buildReport, finalReport, if_neg hlen, if_true]
  rw [if_neg (by omega)]

/-- `buildReport` on a non-empty sample in non-distributed mode: the full
report with no breakdown. -/
theorem buildReport_ok_single (ts : List RootTransaction)
    (bq : List String → List BreakdownEntry) (hne : ts ≠ []) :
    buildReport ts false bq = .ok (finalReport ts none) := by
  have hlen :
      ¬((List.insertionSort optRateLe
          (ts.map fun t => t.clientSampleRate)).length = 0) := by
    rw [List.length_insertionSort, List.length_map]
    simpa using hne
  simp only [buildReport, finalReport, if_neg hlen, Bool.false_eq_true, if_false]

/-! ### C3: zero rows is a valid, non-error terminal state -/

/-- C3: when the root-transaction query returns zero rows, the builder
returns a non-error report with `sample_size = 0` and the breakdown,
null-rate percentage and distributions all absent — for every
distributed-trace mode and every behaviour of the breakdown query, so no
breakdown query result is ever consulted. -/
theorem empty_sample_is_valid_report (dt : Bool)
    (bq : List String → List BreakdownEntry) :
    buildReport [] dt bq =
      .ok { project_breakdown := none, sample_size := 0,
            null_sample_rate_percentage := none,
            sample_rate_distributions := none } := rfl

/-! ### C4: presence of derived fields, and the percentage bounds -/

/-- C4: in every successfully returned report, the null-rate percentage and
the distributions are each present exactly when `sample_size > 0` — so they
are defined together when the sample is non-empty and absent together when
it is empty — and a present percentage lies in `[0, 100]`. -/
theorem report_derived_fields_invariant (ts : List RootTransaction)
    (dt : Bool) (bq : List String → List BreakdownEntry) (r : SamplingReport)
    (h : buildReport ts dt bq = .ok r) :
    (r.null_sample_rate_percentage.isSome ↔ 0 < r.sample_size) ∧
    (r.sample_rate_distributions.isSome ↔ 0 < r.sample_size) ∧
    (∀ q, r.null_sample_rate_percentage = some q → 0 ≤ q ∧ q ≤ 100) := by
  by_cases hne : ts = []
  · subst hne
    rw [buildReport_nil] at h
    have hr : r = ⟨none, 0, none, none⟩ := by
      injection h with h
      exact h.symm
    subst hr
    simp
  · have hfin : ∀ pb, r = finalReport ts pb →
        (r.null_sample_rate_percentage.isSome ↔ 0 < r.sample_size) ∧
        (r.sample_rate_distributions.isSome ↔ 0 < r.sample_size) ∧
        (∀ q, r.null_sample_rate_percentage = some q → 0 ≤ q ∧ q ≤ 100) := by
      intro pb hr
      subst hr
      have hlenpos : 0 < ts.length := List.length_pos.mpr hne
      refine ⟨?_, ?_, ?_⟩
      · simp [finalReport, hlenpos]
      · simp [finalReport, hlenpos]
      · intro q hq
        simp only [finalReport, Option.some.injEq] at hq
        set k : ℕ :=
          (List.insertionSort (· ≤ ·)
            ((List.insertionSort optRateLe
              (ts.map fun t => t.clientSampleRate)).filterMap id)).length
          with hk
        have hkle : k ≤ ts.length := by
          rw [hk, List.length_insertionSort]
          calc ((List.insertionSort optRateLe
                (ts.map fun t => t.clientSampleRate)).filterMap id).length
              ≤ (List.insertionSort optRateLe
                (ts.map fun t => t.clientSampleRate)).length :=
                List.length_filterMap_le _ _
            _ = ts.length := by
                rw [List.length_insertionSort, List.length_map]
        have hn : (0 : ℚ) < (ts.length : ℚ) := by exact_mod_cast hlenpos
        have hkq : (k : ℚ) ≤ (ts.length : ℚ) := by exact_mod_cast hkle
        have hq0 : (0 : ℚ) ≤ ((ts.length : ℚ) - k) / (ts.length : ℚ) :=
          div_nonneg (by linarith) (le_of_lt hn)
        have hq1 : ((ts.length : ℚ) - k) / (ts.length : ℚ) ≤ 1 := by
          rw [div_le_one hn]
          have : (0 : ℚ) ≤ (k : ℚ) := by positivity
          linarith
        rw [← hq]
        constructor
        · positivity
        · calc ((ts.length : ℚ) - k) / (ts.length : ℚ) * 100
              ≤ 1 * 100 := by linarith
            _ = 100 := one_mul _
    cases dt with
    | false =>
      rw [buildReport_ok_single ts bq hne] at h
      injection h with h
      exact hfin none h.symm
    | true =>
      by_cases hcap : 10 < (bq (ts.map fun t => t.trace)).length
      · rw [buildReport_cap ts bq hne hcap] at h
        exact absurd h (by simp)
      · rw [buildReport_ok_distributed ts bq hne (by omega)] at h
        injection h with h
        exact hfin _ h.symm

/-- Witness for C4 at the empty sample. -/
theorem report_derived_fields_invariant_witness :
    (buildReport [] false (fun _ => []) =
      .ok (⟨none, 0, none, none⟩ : SamplingReport)) ∧
    (((⟨none, 0, none, none⟩ :
          SamplingReport).null_sample_rate_percentage.isSome ↔
        0 < (⟨none, 0, none, none⟩ : SamplingReport).sample_size) ∧
      ((⟨none, 0, none, none⟩ :
          SamplingReport).sample_rate_distributions.isSome ↔
        0 < (⟨none, 0, none, none⟩ : SamplingReport).sample_size) ∧
      (∀ q, (⟨none, 0, none, none⟩ :
          SamplingReport).null_sample_rate_percentage = some q →
        0 ≤ q ∧ q ≤ 100)) :=
  ⟨rfl, report_derived_fields_invariant [] false (fun _ => []) _ rfl⟩

/-! ### C2: the breakdown eligibility cap -/

/-- C2: for a non-empty sample in distributed mode, the endpoint rejects
with a client error exactly when the breakdown query returns strictly more
than 10 project rows; with 10 or fewer rows it returns a report carrying
exactly those rows (no truncation), and the rejection carries no report
data (its constructor holds only a status and a message). -/
theorem breakdown_eligibility_cap (ts : List RootTransaction)
    (bq : List String → List BreakdownEntry) (hne : ts ≠ []) :
    ((∃ s d, buildReport ts true bq = .clientError s d) ↔
      10 < (bq (ts.map fun t => t.trace)).length) ∧
    ((bq (ts.map fun t => t.trace)).length ≤ 10 →
      ∃ r, buildReport ts true bq = .ok r ∧
        r.project_breakdown = some (bq (ts.map fun t => t.trace))) := by
  by_cases hcap : 10 < (bq (ts.map fun t => t.trace)).length
  · rw [buildReport_cap ts bq hne hcap]
    refine ⟨⟨fun _ => hcap, fun _ => ⟨400, _, rfl⟩⟩, fun hle => absurd hcap (by omega)⟩
  · rw [buildReport_ok_distributed ts bq hne (by omega)]
    refine ⟨⟨?_, fun hgt => absurd hgt hcap⟩, fun _ => ⟨_, rfl, rfl⟩⟩
    rintro ⟨s, d, hsd⟩
    exact absurd hsd (by simp)

/-- Witness for C2 at a one-transaction sample and an empty breakdown. -/
theorem breakdown_eligibility_cap_witness :
    (([⟨"a", "t", some 1⟩] : List RootTransaction) ≠ []) ∧
    (((∃ s d, buildReport [⟨"a", "t", some 1⟩] true (fun _ => []) =
        .clientError s d) ↔
      10 < ((fun _ => ([] : List BreakdownEntry))
        (([⟨"a", "t", some 1⟩] : List RootTransaction).map
          fun t => t.trace)).length) ∧
    (((fun _ => ([] : List BreakdownEntry))
        (([⟨"a", "t", some 1⟩] : List RootTransaction).map
          fun t => t.trace)).length ≤ 10 →
      ∃ r, buildReport [⟨"a", "t", some 1⟩] true (fun _ => []) = .ok r ∧
        r.project_breakdown =
          some ((fun _ => ([] : List BreakdownEntry))
            (([⟨"a", "t", some 1⟩] : List RootTransaction).map
              fun t => t.trace)))) :=
  ⟨by simp, breakdown_eligibility_cap [⟨"a", "t", some 1⟩] (fun _ => [])
    (by simp)⟩

/-! ### C10: the eligibility failure message and status -/

/-- C10 counterexample: at a one-transaction sample whose breakdown resolves
to 11 projects, the rejection is a 400 whose message is the string used by
the code (Way too many projects in the distributed trace\x27s project
breakdown), which differs from the message the claim demands (too many
projects in the distributed trace breakdown). -/
theorem eligibility_error_message_differs :
    buildReport [⟨"a", "t", some 1⟩] true
        (fun _ => List.replicate 11 ⟨"p", 1⟩) =
      .clientError 400
        "Way too many projects in the distributed trace\x27s project breakdown" ∧
    "Way too many projects in the distributed trace\x27s project breakdown" ≠
      "too many projects in the distributed trace breakdown" := by
  constructor
  · exact buildReport_cap _ _ (by simp) (by simp)
  · decide

/-- C10 amended: when the eligibility cap is exceeded (non-empty sample,
distributed mode, breakdown of more than 10 projects), the returned failure
is status 400 — a client-error status, distinguishable from upstream
failures — with exactly the message string used by the code (Way too many
projects in the distributed trace\x27s project breakdown). -/
theorem eligibility_error_message_and_status (ts : List RootTransaction)
    (bq : List String → List BreakdownEntry) (hne : ts ≠ [])
    (hcap : 10 < (bq (ts.map fun t => t.trace)).length) :
    buildReport ts true bq =
      .clientError 400
        "Way too many projects in the distributed trace\x27s project breakdown" ∧
    400 < 500 :=
  ⟨buildReport_cap ts bq hne hcap, by omega⟩

/-- Witness for the amended C10 theorem at a concrete 11-project breakdown. -/
theorem eligibility_error_message_and_status_witness :
    (([⟨"b", "u", some 1⟩] : List RootTransaction) ≠ []) ∧
    (10 < ((fun _ => List.replicate 11 (⟨"p", 1⟩ : BreakdownEntry))
      (([⟨"b", "u", some 1⟩] : List RootTransaction).map
        fun t => t.trace)).length) ∧
    (buildReport [⟨"b", "u", some 1⟩] true
        (fun _ => List.replicate 11 ⟨"p", 1⟩) =
      .clientError 400
        "Way too many projects in the distributed trace\x27s project breakdown" ∧
      400 < 500) :=
  ⟨by simp, by simp,
    eligibility_error_message_and_status [⟨"b", "u", some 1⟩]
      (fun _ => List.replicate 11 ⟨"p", 1⟩) (by simp) (by simp)⟩

/-! ### C5: sensitivity of the summarizer to input order -/

/-- C5 counterexample: `_get_sample_rates_data` does not sort internally, so
summarizing `[3, 1, 2]` differs from summarizing its ascending-sorted copy:
the `p50` of the unsorted input is `1` (the element at position
`ceil(1.5) - 1 = 1` of `[3, 1, 2]`) while the sorted copy gives `2`. -/
theorem summarizer_sensitive_to_order :
    get_sample_rates_data [(3 : ℚ), 1, 2] ≠
      get_sample_rates_data
        (List.insertionSort (· ≤ ·) [(3 : ℚ), 1, 2]) := by
  have hsort : List.insertionSort (· ≤ ·) [(3 : ℚ), 1, 2] = [1, 2, 3] := by
    norm_num [List.insertionSort, List.orderedInsert]
  rw [hsort]
  intro h
  have hp := congrArg DistributionSummary.p50 h
  have h1 : (get_sample_rates_data [(3 : ℚ), 1, 2]).p50 = some 1 := by
    show percentile_fn [(3 : ℚ), 1, 2] (1/2) = some 1
    rw [percentile_fn_eq_of_frac _ _ 2 (by norm_num) (by norm_num)
      (by norm_num) (by norm_num)]
    simp
  have h2 : (get_sample_rates_data [(1 : ℚ), 2, 3]).p50 = some 2 := by
    show percentile_fn [(1 : ℚ), 2, 3] (1/2) = some 2
    rw [percentile_fn_eq_of_frac _ _ 2 (by norm_num) (by norm_num)
      (by norm_num) (by norm_num)]
    simp
  rw [h1, h2] at hp
  have : (1 : ℚ) = 2 := by injection hp
  norm_num at this

/-- C5 amended: the summarizer requires pre-sorted input (it performs no
internal sort — the builder sorts before calling it); for every
already-sorted value sequence, summarizing it equals summarizing its
ascending-sorted copy. -/
theorem summarizer_fixed_on_sorted_input (values : List ℚ)
    (hs : List.Sorted (· ≤ ·) values) :
    get_sample_rates_data values =
      get_sample_rates_data (List.insertionSort (· ≤ ·) values) := by
  rw [List.Sorted.insertionSort_eq hs]

/-- Witness for the amended C5 theorem at `values = [1]`. -/
theorem summarizer_fixed_on_sorted_input_witness :
    (List.Sorted (· ≤ ·) [(1 : ℚ)]) ∧
    get_sample_rates_data [(1 : ℚ)] =
      get_sample_rates_data (List.insertionSort (· ≤ ·) [(1 : ℚ)]) :=
  ⟨List.sorted_singleton 1,
    summarizer_fixed_on_sorted_input [(1 : ℚ)] (List.sorted_singleton 1)⟩

/-! ### C6: end-to-end scenario B -/

/-- C6: for a batch of 5 root transactions with client sample rates
`[0.1, null, 0.2, 0.5, null]` in non-distributed mode, the builder returns
`sample_size = 5`, `null_sample_rate_percentage = 40`, and the distribution
computed over `[0.1, 0.2, 0.5]`, whose `min` is `0.1`, `max` is `0.5` and
`mean` is `4/15 ≈ 0.2667`. -/
theorem scenario_b_report :
    (buildReport
        [⟨"t1", "a", some (1/10)⟩, ⟨"t2", "b", none⟩, ⟨"t3", "c", some (1/5)⟩,
          ⟨"t4", "d", some (1/2)⟩, ⟨"t5", "e", none⟩]
        false (fun _ => []) =
      .ok ⟨none, 5, some 40,
        some (get_sample_rates_data [1/10, 1/5, 1/2])⟩) ∧
    (get_sample_rates_data [(1 : ℚ)/10, 1/5, 1/2]).min = some (1/10) ∧
    (get_sample_rates_data [(1 : ℚ)/10, 1/5, 1/2]).max = some (1/2) ∧
    (get_sample_rates_data [(1 : ℚ)/10, 1/5, 1/2]).mean = some (4/15) := by
  refine ⟨?_, ?_, ?_, ?_⟩
  · rw [buildReport_ok_single _ (fun _ => []) (by simp)]
    have hnn : List.insertionSort (· ≤ ·)
        ((List.insertionSort optRateLe
          [some ((1 : ℚ)/10), none, some (1/5), some (1/2), none]).filterMap
            id) = [1/10, 1/5, 1/2] := by
      have hperm : (List.insertionSort optRateLe
          [some ((1 : ℚ)/10), none, some (1/5), some (1/2), none]).filterMap
            id |>.Perm [1/10, 1/5, 1/2] := by
        have h1 := (List.perm_insertionSort optRateLe
          [some ((1 : ℚ)/10), none, some (1/5), some (1/2), none]).filterMap id
        simpa using h1
      refine List.eq_of_perm_of_sorted
        ((List.perm_insertionSort _ _).trans hperm)
        (List.sorted_insertionSort _ _) ?_
      norm_num [List.sorted_cons]
    simp only [finalReport, List.map_cons, List.map_nil, hnn]
    norm_num
  · show listMin [(1 : ℚ)/10, 1/5, 1/2] = some (1/10)
    norm_num [listMin, min_def]
  · show listMax [(1 : ℚ)/10, 1/5, 1/2] = some (1/2)
    norm_num [listMax, max_def]
  · show (if ([(1 : ℚ)/10, 1/5, 1/2].length > 0) then
        some (([(1 : ℚ)/10, 1/5, 1/2].sum) / ([(1 : ℚ)/10, 1/5, 1/2].length))
      else none) = some (4/15)
    norm_num
